import Mathlib

/-!
# Verification of `mlx_lm/examples/pipeline_generate.py`

A shallow embedding of the pipelined-inference example script.  The script is
orchestration glue: it raises the file-descriptor limit, downloads model
metadata, lazily loads and pipeline-partitions the model, computes the set of
weight-shard files needed by the local rank from the `weight_map` manifest,
downloads exactly those files, reloads and re-partitions the model, performs a
one-element all-sum barrier, and streams generated text — printing only on
rank 0.

The embedding records the script's externally observable effects as a trace of
`Step`s and computes the pure data (the local file set, the console output)
exactly as the source does.  External collaborators (the huggingface hub
client, the mlx model loader, the partition policy of `model.model.pipeline`)
are abstracted as inputs in `Env`; the distributed `init` primitive, which is
external library code, is modelled from the spec where a claim depends on its
caching behaviour.
-/

namespace PipelineGen

/-- A weight-index manifest: the `weight_map` object of
`model.safetensors.index.json` (script lines 60–61), mapping a flattened
parameter name to the shard filename that stores it.  Modelled as an
association list with string keys. -/
abbrev Manifest := List (String × String)

/-- One externally observable effect of the script, in the order the source
performs them: the `resource.setrlimit` call (line 32), CLI parsing
(line 106), `mx.distributed.init` (lines 55 and 108), a `snapshot_download`
call with its repo and patterns (lines 35–41, called at 46 and 68), a lazy
`load_model` (lines 53 and 76), the `model.model.pipeline(group)` partition
(lines 57 and 77), reading the weight-index manifest (lines 60–61), the
local-file-set loop (lines 63–65), `load_tokenizer` (line 71), the forced
`mx.eval(model.parameters())` (line 78), and the one-element
`mx.distributed.all_sum` barrier (line 82). -/
inductive Step where
  | setrlimit : Nat × Nat → Step
  | parseArgs : Step
  | groupInit : Step
  | download : String → List String → Step
  | loadModel : Step
  | pipelineApply : Nat → Step
  | readManifest : Step
  | computeFiles : Step
  | loadTokenizer : Step
  | evalParams : Step
  | allSum : Step
  deriving DecidableEq, Repr

/-- The external world a run of the script sees.  `argsModel` is the
module-level CLI value `args.model` (line 106); `weight_map` is the parsed
manifest; `partitionedParams` gives, for each rank, the flattened parameter
names of the model after `model.model.pipeline(group)` — i.e. the first
components of `tree_flatten(model.parameters())` at line 64 (the partition
policy itself lives in the external mlx library and is abstracted); `rank`
and `size` describe the distributed group. -/
structure Env where
  argsModel : String
  weight_map : Manifest
  partitionedParams : Nat → List String
  rank : Nat
  size : Nat

/-- Lines 63–65 of the source: starting from the empty set, for each flattened
parameter name `k` add `weight_index[k]` to the accumulator; a key absent
from the manifest is a `KeyError` carrying that key, raised at the first
offending name in iteration order. -/
def computeLocalFiles (weight_index : Manifest) :
    List String → Finset String → Except String (Finset String)
  | [], acc => Except.ok acc
  | k :: ks, acc =>
    match weight_index.lookup k with
    | none => Except.error k
    | some f => computeLocalFiles weight_index ks (insert f acc)

/-- The `allow_patterns` of the first download call (line 48). -/
def metadataPatterns : List String :=
  ["*.json", "*.py", "tokenizer.model", "*.tiktoken", "*.txt"]

/-- The effects of `shard_and_load` up to and including the local-file-set
loop (lines 46–65): metadata download (targeting `args.model`, not the
function's own parameter), lazy model load, group init, pipeline partition,
manifest read, and the file-set loop. -/
def headSteps (env : Env) : List Step :=
  [Step.download env.argsModel metadataPatterns,
   Step.loadModel,
   Step.groupInit,
   Step.pipelineApply env.rank,
   Step.readManifest,
   Step.computeFiles]

/-- The effects of `shard_and_load` after a successful file-set computation
(lines 68–82): weight download (again targeting `args.model`), tokenizer
load, second lazy model load, second pipeline partition, forced parameter
evaluation, and the all-sum barrier. -/
def tailSteps (env : Env) (files : Finset String) : List Step :=
  [Step.download env.argsModel (files.sort (fun a b => a ≤ b)),
   Step.loadTokenizer,
   Step.loadModel,
   Step.pipelineApply env.rank,
   Step.evalParams,
   Step.allSum]

set_option linter.unusedVariables false in
/-- Lines 44–83 of the source: the whole of `shard_and_load`.  The `repo`
parameter is faithfully ignored — the body reads the module-level
`args.model`, exactly as the source does (lines 47 and 68).  Returns the
trace of effects together with either the computed local file set or the
`KeyError` key; a failed lookup aborts before the weight download is issued.
The returned value carries nothing of the all-sum reduction: its numeric
result is discarded, as in the source, where only `model, tokenizer` are
returned. -/
def shard_and_load (env : Env) (repo : String) :
    List Step × Except String (Finset String) :=
  match computeLocalFiles env.weight_map (env.partitionedParams env.rank) ∅ with
  | Except.error k => (headSteps env, Except.error k)
  | Except.ok files => (headSteps env ++ tailSteps env files, Except.ok files)

/-- The repo targeted by a download step, if the step is a download. -/
def stepDownloadRepo : Step → Option String
  | Step.download r _ => some r
  | _ => none

set_option linter.unusedVariables false in
/-- Line 32 of the source: `resource.setrlimit(resource.RLIMIT_NOFILE,
(2048, 4096))`.  The call sets the (soft, hard) open-file-descriptor limits
to the constants 2048 and 4096 regardless of the limits in force before it
(assuming the call itself succeeds). -/
def setrlimitNofile (initial : Nat × Nat) : Nat × Nat :=
  (2048, 4096)

/-- The module-level effect trace of the script: the `setrlimit` at import
time (line 32), then under `__main__` the argument parsing (line 106), the
group init (line 108), and the body of `shard_and_load(args.model)`
(line 115).  Generation follows but performs no further steps of these
kinds. -/
def scriptTrace (env : Env) : List Step :=
  Step.setrlimit (2048, 4096) :: Step.parseArgs :: Step.groupInit ::
    (shard_and_load env env.argsModel).1

/-- Whether a step is the resource-limit adjustment. -/
def isSetrlimitStep : Step → Bool
  | Step.setrlimit _ => true
  | _ => false

/-- Whether a step performs file or network I/O: downloads, model loads, the
manifest read, tokenizer load, the weight-materialising eval, and the
network collective all touch files or the network; `setrlimit`, argument
parsing, the in-memory partition and the in-memory file-set loop do not. -/
def isIOStep : Step → Bool
  | Step.download _ _ => true
  | Step.loadModel => true
  | Step.readManifest => true
  | Step.loadTokenizer => true
  | Step.evalParams => true
  | Step.allSum => true
  | _ => false

/-- A distributed group as the script sees it: a rank and a size
(`group.rank()` at lines 56 and 109; the size is fixed by the launcher). -/
structure DistGroup where
  rank : Nat
  size : Nat
  deriving DecidableEq, Repr

/-- Modelled from the spec: `mx.distributed.init()` is external mlx library
code, absent from this repository.  The spec states the group is «created
once per process at startup; immutable thereafter», so `init` is modelled as
an idempotent cached singleton: it creates the process's group on first call
and returns the cached group on every later call.  The result is the group,
the updated cache, and whether this call created the group. -/
def distInit (world : DistGroup) (cache : Option DistGroup) :
    DistGroup × Option DistGroup × Bool :=
  match cache with
  | some g => (g, some g, false)
  | none => (world, some world, true)

/-- The two `mx.distributed.init()` call sites of one script run, in
execution order: line 108 in `__main__`, then line 55 inside
`shard_and_load` (entered from line 115).  Returns the group each call
yielded and how many of the calls created a group. -/
def scriptGroupRun (world : DistGroup) : DistGroup × DistGroup × Nat :=
  match distInit world none with
  | (g1, cache1, created1) =>
    match distInit world cache1 with
    | (g2, _, created2) =>
      (g1, g2, (cond created1 1 0) + (cond created2 1 0))

/-- One incremental record of `stream_generate` (consumed at lines 120–135).
The token-count fields are integers; the throughput and peak-memory fields
are floating-point in the source and are represented here by their rendered
decimal text (the `:.3f` formatting of lines 129, 133, 135), since this
development does not model IEEE-754 arithmetic or formatting. -/
structure Response where
  text : String
  prompt_tokens : Nat
  prompt_tps : String
  generation_tokens : Nat
  generation_tps : String
  peak_memory : String

/-- Lines 111–113 of the source: `rprint` forwards to `print` only when the
process rank is 0.  `out` is the stdout accumulated so far and `s` the
exact text this call would emit (the caller accounts for `print`'s
end-of-line behaviour). -/
def rprint (rank : Nat) (out s : String) : String :=
  if rank = 0 then out ++ s else out

/-- Lines 120–123 of the source: the streaming loop relays each record's
`text` fragment through `rprint` with `end=""` (no separator, no newline). -/
def streamLoop (rank : Nat) (responses : List Response) (out : String) : String :=
  responses.foldl (fun o r => rprint rank o r.text) out

/-- Line 128–130 of the source: the prompt summary line. -/
def promptLine (r : Response) : String :=
  "Prompt: " ++ toString r.prompt_tokens ++ " tokens, " ++
    r.prompt_tps ++ " tokens-per-sec"

/-- Lines 131–134 of the source: the generation summary line. -/
def generationLine (r : Response) : String :=
  "Generation: " ++ toString r.generation_tokens ++ " tokens, " ++
    r.generation_tps ++ " tokens-per-sec"

/-- Line 135 of the source: the peak-memory summary line. -/
def peakMemoryLine (r : Response) : String :=
  "Peak memory: " ++ r.peak_memory ++ " GB"

/-- Lines 120–135 of the source: the generation driver.  It streams the text
fragments, then prints an empty line and the ten-character separator line,
and then evaluates the summary f-strings against the loop variable
`response`.  When the stream yielded no record, that variable was never
bound, so evaluating the first f-string raises `NameError` — on every rank,
because `print` arguments are evaluated before `rprint`'s rank test runs.
Returns the stdout this rank produced together with either success or that
error. -/
def driver (rank : Nat) (responses : List Response) :
    String × Except String Unit :=
  let out0 := streamLoop rank responses ""
  let out1 := rprint rank out0 "\n"
  let out2 := rprint rank out1 ("==========" ++ "\n")
  match responses.getLast? with
  | none => (out2, Except.error "NameError: response is not defined")
  | some r =>
    let out3 := rprint rank out2 (promptLine r ++ "\n")
    let out4 := rprint rank out3 (generationLine r ++ "\n")
    let out5 := rprint rank out4 (peakMemoryLine r ++ "\n")
    (out5, Except.ok ())

/-- If every listed parameter name has a manifest entry, the file-set loop
succeeds, and its result holds exactly the accumulator's elements plus the
manifest values of the listed names. -/
theorem computeLocalFiles_ok (wi : Manifest) (params : List String) :
    ∀ acc : Finset String,
      (∀ k ∈ params, (wi.lookup k).isSome = true) →
      ∃ S, computeLocalFiles wi params acc = Except.ok S ∧
        ∀ f, f ∈ S ↔ (f ∈ acc ∨ ∃ k ∈ params, wi.lookup k = some f) := by
  induction params with
  | nil =>
    intro acc _
    exact ⟨acc, rfl, by simp⟩
  | cons k ks ih =>
    intro acc h
    obtain ⟨f, hf⟩ := Option.isSome_iff_exists.mp (h k (List.mem_cons_self k ks))
    obtain ⟨S, hS, hmem⟩ :=
      ih (insert f acc) (fun k' hk' => h k' (List.mem_cons_of_mem _ hk'))
    refine ⟨S, by simp [computeLocalFiles, hf, hS], ?_⟩
    intro f'
    rw [hmem f']
    constructor
    · rintro (hacc | ⟨k', hk', hl⟩)
      · rcases Finset.mem_insert.mp hacc with heq | hacc'
        · exact Or.inr ⟨k, List.mem_cons_self k ks, by rw [heq]; exact hf⟩
        · exact Or.inl hacc'
      · exact Or.inr ⟨k', List.mem_cons_of_mem _ hk', hl⟩
    · rintro (hacc | ⟨k', hk', hl⟩)
      · exact Or.inl (Finset.mem_insert_of_mem hacc)
      · rcases List.mem_cons.mp hk' with heq | hk''
        · rw [heq, hf] at hl
          exact Or.inl (Finset.mem_insert.mpr (Or.inl (Option.some.inj hl).symm))
        · exact Or.inr ⟨k', hk'', hl⟩

/-- If some listed parameter name is absent from the manifest, the file-set
loop fails, and the error it carries is itself a name absent from the
manifest. -/
theorem computeLocalFiles_err (wi : Manifest) (params : List String) :
    ∀ acc : Finset String,
      (∃ k ∈ params, wi.lookup k = none) →
      ∃ k', computeLocalFiles wi params acc = Except.error k' ∧
        wi.lookup k' = none := by
  induction params with
  | nil =>
    intro acc h
    simp at h
  | cons k ks ih =>
    intro acc h
    cases hl : wi.lookup k with
    | none => exact ⟨k, by simp [computeLocalFiles, hl], hl⟩
    | some f =>
      obtain ⟨k', hk', hn⟩ := h
      rcases List.mem_cons.mp hk' with heq | hk''
      · rw [heq, hl] at hn
        exact Option.noConfusion hn
      · obtain ⟨k2, hc, hn2⟩ := ih (insert f acc) ⟨k', hk'', hn⟩
        exact ⟨k2, by simp [computeLocalFiles, hl, hc], hn2⟩

/-- A successful file-set loop covers all listed names: each one has a
manifest entry and that entry's file is in the resulting set, which also
keeps the whole accumulator. -/
theorem computeLocalFiles_superset (wi : Manifest) (params : List String) :
    ∀ (acc S : Finset String),
      computeLocalFiles wi params acc = Except.ok S →
      (∀ k ∈ params, ∃ f, wi.lookup k = some f ∧ f ∈ S) ∧ acc ⊆ S := by
  induction params with
  | nil =>
    intro acc S h
    have hacc : acc = S := by
      simpa [computeLocalFiles] using h
    subst hacc
    exact ⟨by simp, Finset.Subset.refl acc⟩
  | cons k ks ih =>
    intro acc S h
    cases hl : wi.lookup k with
    | none =>
      rw [show computeLocalFiles wi (k :: ks) acc = Except.error k from by
        simp [computeLocalFiles, hl]] at h
      exact Except.noConfusion h
    | some f =>
      rw [show computeLocalFiles wi (k :: ks) acc =
          computeLocalFiles wi ks (insert f acc) from by
        simp [computeLocalFiles, hl]] at h
      obtain ⟨hall, hsub⟩ := ih (insert f acc) S h
      refine ⟨?_, fun x hx => hsub (Finset.mem_insert_of_mem hx)⟩
      intro k' hk'
      rcases List.mem_cons.mp hk' with heq | hk''
      · exact ⟨f, by rw [heq]; exact hl, hsub (Finset.mem_insert_self f acc)⟩
      · exact hall k' hk''

/-- `shard_and_load` returns a file set exactly when the file-set loop does,
and it is the same set. -/
theorem shard_and_load_ok_iff (env : Env) (repo : String) (S : Finset String) :
    (shard_and_load env repo).2 = Except.ok S ↔
      computeLocalFiles env.weight_map (env.partitionedParams env.rank) ∅ =
        Except.ok S := by
  unfold shard_and_load
  cases hc : computeLocalFiles env.weight_map (env.partitionedParams env.rank) ∅ with
  | error k => simp
  | ok files => simp

/-- On success with file set `S`, the effect trace of `shard_and_load` is the
head steps followed by the tail steps for `S`. -/
theorem shard_and_load_trace_ok (env : Env) (repo : String) (S : Finset String)
    (h : (shard_and_load env repo).2 = Except.ok S) :
    (shard_and_load env repo).1 = headSteps env ++ tailSteps env S := by
  have hc := (shard_and_load_ok_iff env repo S).mp h
  unfold shard_and_load
  rw [hc]

/-- On failure the effect trace of `shard_and_load` is the head steps only. -/
theorem shard_and_load_trace_err (env : Env) (repo : String) (k : String)
    (h : computeLocalFiles env.weight_map (env.partitionedParams env.rank) ∅ =
      Except.error k) :
    (shard_and_load env repo).1 = headSteps env := by
  unfold shard_and_load
  rw [h]

/-- Folding string concatenation from any seed prepends the seed to the fold
from the empty string. -/
theorem string_foldl_append (l : List String) :
    ∀ a : String,
      l.foldl (fun r t => r ++ t) a = a ++ String.join l := by
  induction l with
  | nil =>
    intro a
    exact (String.append_empty a).symm
  | cons s l ih =>
    intro a
    have h2 : String.join (s :: l) = s ++ String.join l := by
      show List.foldl (fun r t => r ++ t) ("" ++ s) l = s ++ String.join l
      rw [String.empty_append]
      exact ih s
    show List.foldl (fun r t => r ++ t) (a ++ s) l = a ++ String.join (s :: l)
    rw [ih (a ++ s), h2, String.append_assoc]

/-- Joining a string onto a list of strings concatenates it in front. -/
theorem string_join_cons (s : String) (l : List String) :
    String.join (s :: l) = s ++ String.join l := by
  show List.foldl (fun r t => r ++ t) ("" ++ s) l = s ++ String.join l
  rw [String.empty_append]
  exact string_foldl_append l s

/-- On a nonzero rank the streaming loop emits nothing. -/
theorem streamLoop_silent (rank : Nat) (h : rank ≠ 0) (responses : List Response) :
    ∀ out : String, streamLoop rank responses out = out := by
  induction responses with
  | nil =>
    intro out
    rfl
  | cons r rs ih =>
    intro out
    show streamLoop rank rs (rprint rank out r.text) = out
    rw [show rprint rank out r.text = out from by simp [rprint, h]]
    exact ih out

/-- On rank 0 the streaming loop appends the records' text fragments in
order. -/
theorem streamLoop_rank0 (responses : List Response) :
    ∀ out : String,
      streamLoop 0 responses out =
        out ++ String.join (responses.map Response.text) := by
  induction responses with
  | nil =>
    intro out
    exact (String.append_empty out).symm
  | cons r rs ih =>
    intro out
    show streamLoop 0 rs (rprint 0 out r.text) = _
    rw [show rprint 0 out r.text = out ++ r.text from by simp [rprint]]
    rw [ih (out ++ r.text), List.map_cons, string_join_cons, String.append_assoc]

/-- A concrete environment with a complete manifest: two parameters stored in
two shard files, a two-member group, rank 0 holding the first parameter. -/
def envW : Env where
  argsModel := "mlx-community/DeepSeek-R1-3bit"
  weight_map :=
    [("model.layers.0.weight", "model-00001.safetensors"),
     ("model.layers.1.weight", "model-00002.safetensors")]
  partitionedParams := fun r =>
    if r = 0 then ["model.layers.0.weight"] else ["model.layers.1.weight"]
  rank := 0
  size := 2

/-- A concrete environment whose partitioned model needs a parameter that the
manifest does not list. -/
def envMissing : Env where
  argsModel := "mlx-community/DeepSeek-R1-3bit"
  weight_map := [("model.layers.0.weight", "model-00001.safetensors")]
  partitionedParams := fun _ =>
    ["model.layers.0.weight", "model.embed.weight"]
  rank := 0
  size := 2

/-- A concrete generation record. -/
def respW : Response where
  text := "Hello"
  prompt_tokens := 4
  prompt_tps := "12.500"
  generation_tokens := 5
  generation_tps := "9.000"
  peak_memory := "1.234"

/-- C1: for every weight-index manifest and every flattened parameter-name
collection of the partition-reduced model whose names all appear in the
manifest, the local file set computed by `shard_and_load` is exactly the set
of manifest values at those names — a file belongs to it precisely when it is
the manifest's file for some required name, so the set has no duplicates and
no extraneous entries. -/
theorem local_file_set_eq_manifest_image (env : Env) (repo : String)
    (h : ∀ k ∈ env.partitionedParams env.rank,
      (env.weight_map.lookup k).isSome = true) :
    ∃ S, (shard_and_load env repo).2 = Except.ok S ∧
      ∀ f, f ∈ S ↔
        ∃ k ∈ env.partitionedParams env.rank,
          env.weight_map.lookup k = some f := by
  obtain ⟨S, hS, hmem⟩ :=
    computeLocalFiles_ok env.weight_map (env.partitionedParams env.rank) ∅ h
  refine ⟨S, (shard_and_load_ok_iff env repo S).mpr hS, ?_⟩
  intro f
  rw [hmem f]
  simp

/-- Witness for C1 at a concrete manifest and environment. -/
theorem local_file_set_eq_manifest_image_witness :
    (∀ k ∈ envW.partitionedParams envW.rank,
      (envW.weight_map.lookup k).isSome = true) ∧
    (∃ S, (shard_and_load envW "mlx-community/DeepSeek-R1-3bit").2 = Except.ok S ∧
      ∀ f, f ∈ S ↔
        ∃ k ∈ envW.partitionedParams envW.rank,
          envW.weight_map.lookup k = some f) :=
  ⟨by decide,
   local_file_set_eq_manifest_image envW "mlx-community/DeepSeek-R1-3bit"
     (by decide)⟩

/-- C2: the pipeline-partition transformation is applied to the lazily loaded
model before the local file set is computed — the partition step strictly
precedes the file-set step in `shard_and_load`'s effect trace — and
consequently, whenever `shard_and_load` succeeds with file set `S` for a
rank, every parameter name present after pipeline partitioning for that rank
has its containing weight file in `S`, so `S` is a superset of the files
those parameters require. -/
theorem partition_precedes_file_set (env : Env) (repo : String)
    (S : Finset String)
    (h : (shard_and_load env repo).2 = Except.ok S) :
    List.Sublist [Step.pipelineApply env.rank, Step.computeFiles]
      (shard_and_load env repo).1 ∧
    ∀ k ∈ env.partitionedParams env.rank,
      ∃ f, env.weight_map.lookup k = some f ∧ f ∈ S := by
  have hc := (shard_and_load_ok_iff env repo S).mp h
  constructor
  · rw [shard_and_load_trace_ok env repo S h]
    have hsub : List.Sublist [Step.pipelineApply env.rank, Step.computeFiles]
        (headSteps env) :=
      List.Sublist.cons _ (List.Sublist.cons _ (List.Sublist.cons _
        (List.Sublist.cons₂ _ (List.Sublist.cons _
          (List.Sublist.cons₂ _ List.Sublist.slnil)))))
    exact hsub.trans (List.sublist_append_left _ _)
  · exact (computeLocalFiles_superset env.weight_map
      (env.partitionedParams env.rank) ∅ S hc).1

/-- Witness for C2 at a concrete environment and its computed file set. -/
theorem partition_precedes_file_set_witness :
    ((shard_and_load envW "mlx-community/DeepSeek-R1-3bit").2 =
      Except.ok {"model-00001.safetensors"}) ∧
    (List.Sublist [Step.pipelineApply envW.rank, Step.computeFiles]
      (shard_and_load envW "mlx-community/DeepSeek-R1-3bit").1 ∧
    ∀ k ∈ envW.partitionedParams envW.rank,
      ∃ f, envW.weight_map.lookup k = some f ∧ f ∈
        ({"model-00001.safetensors"} : Finset String)) :=
  ⟨rfl,
   partition_precedes_file_set envW "mlx-community/DeepSeek-R1-3bit"
     {"model-00001.safetensors"} rfl⟩

/-- C5: when some flattened parameter name of the partition-reduced model is
absent from the manifest, `shard_and_load` fails with a lookup error — the
error names a parameter missing from the manifest — and its effect trace
contains exactly one download call: the metadata download; the targeted
weight-shard download is never issued. -/
theorem missing_manifest_key_fatal (env : Env) (repo : String) (k : String)
    (hk : k ∈ env.partitionedParams env.rank)
    (hmiss : env.weight_map.lookup k = none) :
    (∃ k', (shard_and_load env repo).2 = Except.error k' ∧
      env.weight_map.lookup k' = none) ∧
    List.countP (fun s => (stepDownloadRepo s).isSome)
      (shard_and_load env repo).1 = 1 := by
  obtain ⟨k', hc, hn⟩ :=
    computeLocalFiles_err env.weight_map (env.partitionedParams env.rank) ∅
      ⟨k, hk, hmiss⟩
  have htr := shard_and_load_trace_err env repo k' hc
  constructor
  · refine ⟨k', ?_, hn⟩
    unfold shard_and_load
    rw [hc]
  · rw [htr]
    simp [headSteps, stepDownloadRepo, List.countP_cons]

/-- Witness for C5 at a concrete environment missing one manifest key. -/
theorem missing_manifest_key_fatal_witness :
    ("model.embed.weight" ∈ envMissing.partitionedParams envMissing.rank) ∧
    (envMissing.weight_map.lookup "model.embed.weight" = none) ∧
    ((∃ k', (shard_and_load envMissing "mlx-community/DeepSeek-R1-3bit").2 =
        Except.error k' ∧ envMissing.weight_map.lookup k' = none) ∧
    List.countP (fun s => (stepDownloadRepo s).isSome)
      (shard_and_load envMissing "mlx-community/DeepSeek-R1-3bit").1 = 1) :=
  ⟨by decide, by decide,
   missing_manifest_key_fatal envMissing "mlx-community/DeepSeek-R1-3bit"
     "model.embed.weight" (by decide) (by decide)⟩

/-- C4 counterexample: called with the repository identifier
"other-org/other-model" while the module-level `args.model` is
"mlx-community/DeepSeek-R1-3bit", `shard_and_load` issues two download calls
and both target `args.model` — neither targets the repository identifier it
was given, refuting the claim that its download behaviour is determined by
its argument. -/
theorem downloads_ignore_repo_argument_cex :
    List.filterMap stepDownloadRepo
      (shard_and_load envW "other-org/other-model").1 =
      ["mlx-community/DeepSeek-R1-3bit", "mlx-community/DeepSeek-R1-3bit"] ∧
    "mlx-community/DeepSeek-R1-3bit" ≠ "other-org/other-model" := by
  exact ⟨rfl, by decide⟩

/-- C4 amended: every download call `shard_and_load` performs targets the
module-level CLI value `args.model`; the function's `repo` parameter is
ignored, so its download behaviour is determined by that module-level state
and coincides with its argument only when the two are equal — as at the
script's sole call site, `shard_and_load(args.model)`. -/
theorem downloads_target_args_model (env : Env) (repo : String) :
    List.all
      (List.filterMap stepDownloadRepo (shard_and_load env repo).1)
      (fun r => r == env.argsModel) = true := by
  unfold shard_and_load
  cases hc : computeLocalFiles env.weight_map (env.partitionedParams env.rank) ∅ with
  | error k => simp [headSteps, stepDownloadRepo]
  | ok files => simp [headSteps, tailSteps, stepDownloadRepo]

/-- C6: on every successful run of `shard_and_load` the one-element all-sum
collective is the last effect before the function returns — in particular it
comes after the weight-shard download and after the forced parameter
evaluation — and the returned value is the file set computed earlier, which
carries nothing of the reduction's numeric result (the embedding's return
type, mirroring the source's `return model, tokenizer`, discards it). -/
theorem allsum_barrier_after_download_eval (env : Env) (repo : String)
    (S : Finset String)
    (h : (shard_and_load env repo).2 = Except.ok S) :
    (shard_and_load env repo).1.getLast? = some Step.allSum ∧
    List.Sublist
      [Step.download env.argsModel (S.sort (fun a b => a ≤ b)),
       Step.evalParams, Step.allSum]
      (shard_and_load env repo).1 := by
  rw [shard_and_load_trace_ok env repo S h]
  constructor
  · rfl
  · have hsub : List.Sublist
        [Step.download env.argsModel (S.sort (fun a b => a ≤ b)),
         Step.evalParams, Step.allSum]
        (tailSteps env S) :=
      List.Sublist.cons₂ _ (List.Sublist.cons _ (List.Sublist.cons _
        (List.Sublist.cons _ (List.Sublist.cons₂ _
          (List.Sublist.cons₂ _ List.Sublist.slnil)))))
    exact hsub.trans (List.sublist_append_right _ _)

/-- Witness for C6 at a concrete environment and its computed file set. -/
theorem allsum_barrier_after_download_eval_witness :
    ((shard_and_load envW "mlx-community/DeepSeek-R1-3bit").2 =
      Except.ok {"model-00001.safetensors"}) ∧
    ((shard_and_load envW "mlx-community/DeepSeek-R1-3bit").1.getLast? =
      some Step.allSum ∧
    List.Sublist
      [Step.download envW.argsModel
        (({"model-00001.safetensors"} : Finset String).sort (fun a b => a ≤ b)),
       Step.evalParams, Step.allSum]
      (shard_and_load envW "mlx-community/DeepSeek-R1-3bit").1) :=
  ⟨rfl,
   allsum_barrier_after_download_eval envW "mlx-community/DeepSeek-R1-3bit"
     {"model-00001.safetensors"} rfl⟩

/-- C7 counterexample: with the open-file-descriptor limits initially at
soft 4096 and hard 4096, the adjustment of line 32 sets the soft limit to
2048, strictly lower than before — refuting the claim that after the
adjustment the limit is at least as high as it was for every initial
state. -/
theorem setrlimit_can_lower_limit_cex :
    (setrlimitNofile (4096, 4096)).1 < 4096 := by
  decide

/-- C7 amended: the script performs the file-descriptor-limit adjustment
exactly once, as the very first step of the run — hence before any file or
network I/O, every I/O step sitting at a strictly later position — and it
sets the limits to soft 2048 and hard 4096 unconditionally, which leaves the
limits at least as high as before exactly when the initial soft limit was at
most 2048 and the initial hard limit at most 4096. -/
theorem setrlimit_once_before_io (env : Env) (initial : Nat × Nat)
    (h1 : initial.1 ≤ 2048) (h2 : initial.2 ≤ 4096) :
    (∃ t, scriptTrace env = Step.setrlimit (2048, 4096) :: t ∧
      ∀ s ∈ t, isSetrlimitStep s = false) ∧
    (∀ i (hi : i < (scriptTrace env).length),
      isIOStep ((scriptTrace env).get ⟨i, hi⟩) = true → 0 < i) ∧
    initial.1 ≤ (setrlimitNofile initial).1 ∧
    initial.2 ≤ (setrlimitNofile initial).2 := by
  have htail : ∀ s ∈ (shard_and_load env env.argsModel).1,
      isSetrlimitStep s = false := by
    intro s hs
    unfold shard_and_load at hs
    cases hc : computeLocalFiles env.weight_map (env.partitionedParams env.rank) ∅ with
    | error k =>
      rw [hc] at hs
      simp only [headSteps, List.mem_cons, List.not_mem_nil, or_false] at hs
      rcases hs with h | h | h | h | h | h
      all_goals (rw [h]; rfl)
    | ok files =>
      rw [hc] at hs
      simp only [headSteps, tailSteps, List.mem_append, List.mem_cons,
        List.not_mem_nil, or_false] at hs
      rcases hs with (h | h | h | h | h | h) | (h | h | h | h | h | h)
      all_goals (rw [h]; rfl)
  refine ⟨⟨Step.parseArgs :: Step.groupInit ::
      (shard_and_load env env.argsModel).1, rfl, ?_⟩, ?_, h1, h2⟩
  · intro s hs
    rcases List.mem_cons.mp hs with h | hs'
    · rw [h]; rfl
    · rcases List.mem_cons.mp hs' with h | hs''
      · rw [h]; rfl
      · exact htail s hs''
  · intro i hi hio
    cases i with
    | zero =>
      exfalso
      have : isIOStep (Step.setrlimit (2048, 4096)) = true := hio
      exact Bool.noConfusion this
    | succ n => exact Nat.succ_pos n

/-- Witness for C7's amended statement at a concrete environment and a
default-like initial limit of soft 1024, hard 4096. -/
theorem setrlimit_once_before_io_witness :
    ((1024 : Nat) ≤ 2048) ∧ ((4096 : Nat) ≤ 4096) ∧
    ((∃ t, scriptTrace envW = Step.setrlimit (2048, 4096) :: t ∧
      ∀ s ∈ t, isSetrlimitStep s = false) ∧
    (∀ i (hi : i < (scriptTrace envW).length),
      isIOStep ((scriptTrace envW).get ⟨i, hi⟩) = true → 0 < i) ∧
    (1024 : Nat) ≤ (setrlimitNofile (1024, 4096)).1 ∧
    (4096 : Nat) ≤ (setrlimitNofile (1024, 4096)).2) :=
  ⟨by decide, by decide,
   setrlimit_once_before_io envW (1024, 4096) (by decide) (by decide)⟩

/-- C8: both group-initialization call sites of one script run — line 108 in
`__main__` and line 55 inside `shard_and_load` — yield the same group, and
exactly one of the two calls creates it: the group is created once per
process at startup and every subsequent use refers to that same group. -/
theorem group_initialized_once (world : DistGroup) :
    scriptGroupRun world = (world, world, 1) := by
  rfl

/-- C3: whatever the distributed group and whatever the generated response
records, a process whose rank is not 0 produces no stdout at all — every
print goes through `rprint`, whose rank test suppresses it — while such
ranks still run the whole driver (the suppressed computation is performed
either way). -/
theorem nonzero_rank_prints_nothing (rank : Nat) (responses : List Response)
    (h : rank ≠ 0) :
    (driver rank responses).1 = "" := by
  unfold driver
  cases hL : responses.getLast? with
  | none => simp [streamLoop_silent rank h responses, rprint, h]
  | some r => simp [streamLoop_silent rank h responses, rprint, h]

/-- Witness for C3 on rank 1 with one generated record. -/
theorem nonzero_rank_prints_nothing_witness :
    ((1 : Nat) ≠ 0) ∧ (driver 1 [respW]).1 = "" :=
  ⟨by decide, nonzero_rank_prints_nothing 1 [respW] (by decide)⟩

/-- C9: for every nonempty sequence of generated records, rank 0's console
output is the records' text fragments concatenated in order with no
trailing newline, then a newline, then the ten-equals separator line, then
exactly three summary lines — prompt token count with prompt throughput,
generation token count with generation throughput, and peak memory in
gigabytes — all taken from the final record. -/
theorem rank0_output_format (responses : List Response) (r : Response)
    (hlast : responses.getLast? = some r) :
    (driver 0 responses).1 =
      String.join (responses.map Response.text) ++ "\n" ++
      "==========" ++ "\n" ++
      promptLine r ++ "\n" ++
      generationLine r ++ "\n" ++
      peakMemoryLine r ++ "\n" := by
  unfold driver
  rw [hlast]
  simp [rprint, streamLoop_rank0 responses "", String.empty_append,
    String.append_assoc]

/-- Witness for C9 with one concrete generated record. -/
theorem rank0_output_format_witness :
    ([respW].getLast? = some respW) ∧
    (driver 0 [respW]).1 =
      String.join ([respW].map Response.text) ++ "\n" ++
      "==========" ++ "\n" ++
      promptLine respW ++ "\n" ++
      generationLine respW ++ "\n" ++
      peakMemoryLine respW ++ "\n" :=
  ⟨rfl, rank0_output_format [respW] respW rfl⟩

/-- C10: the driver completes successfully exactly when the generation
stream yielded at least one record; on an empty stream the loop variable
holding the last record was never bound, and evaluating the summary
f-string raises an unbound-variable `NameError` on every rank. -/
theorem summary_requires_nonempty_stream (rank : Nat)
    (responses : List Response) :
    ((driver rank responses).2 = Except.ok () ↔ responses ≠ []) ∧
    (driver rank []).2 = Except.error "NameError: response is not defined" := by
  constructor
  · constructor
    · intro h hne
      subst hne
      simp [driver] at h
    · intro hne
      cases hL : responses.getLast? with
      | none =>
        exact absurd (List.getLast?_eq_none_iff.mp hL) hne
      | some r =>
        simp [driver, hL]
  · rfl

end PipelineGen
